import Mathlib

/-!
Shallow embedding of the semantic core of the `rust-analyzer` snapshot:
the module read API and path resolver of `crates/ra_hir` (`code_model_api.rs`,
`code_model_impl/module.rs`), the change-application protocol and diagnostics
of `crates/ra_ide_api` (`imp.rs`), and `parent_module` (`parent_module.rs`).

Machine integers (ids) are modelled as `Nat`; every db query is modelled
against a fixed consistent snapshot, so the `Cancelable<T>` result type of the
source collapses to `T` (the cancellation channel is a concurrency concern,
orthogonal to the functional claims proved here).  Parts of the repository
that the shown files call into but that are not part of the shown source
(module_tree.rs, nameres.rs, ids.rs, source_binder.rs) are modelled from the
spec; each such definition carries a comment saying so.
-/

namespace RA

/-- File identity (`FileId`), a numeric surrogate. -/
abbrev FileId := Nat

/-- Source-root identity (`SourceRootId`). -/
abbrev SourceRootId := Nat

/-- Module-node identity inside one source root's module tree (`ModuleId`). -/
abbrev ModuleId := Nat

/-- Item names (`Name`, a wrapper over an interned string in the source). -/
abbrev Name := String

/-- Relative filesystem paths (`RelativePathBuf`), as a list of components;
`join` becomes list append. -/
abbrev RelPath := List String

/-- A syntax node, modelled by the data the shown code reads off it: its kind
tag, its text range, and whether it casts to `ast::SourceFile`. -/
structure SyntaxNode where
  kind : Nat
  range : Nat × Nat
  is_source_file : Bool
deriving DecidableEq

/-- `Problem` from `code_model_api.rs`: a recoverable structural module-layout
issue attached to a module node. -/
inductive Problem
  | UnresolvedModule (candidate : RelPath)
  | NotDirOwner (move_to : RelPath) (candidate : RelPath)
deriving DecidableEq

/-- Modelled from the spec: the definition-kind tag stored in a
`DefLoc` (crate `ra_hir` ids, not under src/); §3 lists the closed variant
set Module | Struct | Enum | EnumVariant | Function | Const | Static | Trait |
TypeAlias | Item.  (`Type` of the source is rendered `TypeAlias`, as `Type` is
a Lean keyword.) -/
inductive DefKind
  | Module
  | Struct
  | Enum
  | EnumVariant
  | Function
  | Const
  | Static
  | Trait
  | TypeAlias
  | Item
deriving DecidableEq

/-- `DefLoc`: (kind, source root, module node, source item) identifying where
a definition's syntax lives (`code_model_impl/module.rs` builds one in
`from_module_id`). -/
structure DefLoc where
  kind : DefKind
  source_root_id : SourceRootId
  module_id : ModuleId
  source_item_id : Nat
deriving DecidableEq

/-- `DefId`: the interned surrogate for a `DefLoc`.  The interner is a
bijection between seen locations and handles (spec §4.3: lookup-or-insert is
idempotent, equal locations yield the same handle), so the embedding
identifies a handle with its location; `DefLoc.id` and `DefId.loc` are both
the identity. -/
abbrev DefId := DefLoc

/-- `hir::Module`: a typed wrapper carrying a `DefId`. -/
structure Module where
  def_id : DefId
deriving DecidableEq

/-- `hir::Struct`. -/
structure Struct where
  def_id : DefId
deriving DecidableEq

/-- `hir::Enum`. -/
structure Enum where
  def_id : DefId
deriving DecidableEq

/-- `hir::EnumVariant`. -/
structure EnumVariant where
  def_id : DefId
deriving DecidableEq

/-- `hir::Function`. -/
structure Function where
  def_id : DefId
deriving DecidableEq

/-- `hir::Const`. -/
structure Const where
  def_id : DefId
deriving DecidableEq

/-- `hir::Static`. -/
structure Static where
  def_id : DefId
deriving DecidableEq

/-- `hir::Trait`. -/
structure Trait where
  def_id : DefId
deriving DecidableEq

/-- `hir::Type` (rendered `TypeAlias`: `Type` is a Lean keyword). -/
structure TypeAlias where
  def_id : DefId
deriving DecidableEq

/-- `Def` from `code_model_api.rs`: the closed variant set of typed
definition entities. -/
inductive Def
  | Module (m : Module)
  | Struct (s : Struct)
  | Enum (e : Enum)
  | EnumVariant (ev : EnumVariant)
  | Function (f : Function)
  | Const (c : Const)
  | Static (s : Static)
  | Trait (t : Trait)
  | TypeAlias (t : TypeAlias)
  | Item
deriving DecidableEq

/-- Modelled from the spec: `DefId::resolve` (crate `ra_hir` ids, not under
src/) resolves a handle back to a typed entity by a single exhaustive
dispatch on the stored kind tag (spec §4.3). -/
def DefLoc.resolve (d : DefId) : Def :=
  match d.kind with
  | DefKind.Module => Def.Module ⟨d⟩
  | DefKind.Struct => Def.Struct ⟨d⟩
  | DefKind.Enum => Def.Enum ⟨d⟩
  | DefKind.EnumVariant => Def.EnumVariant ⟨d⟩
  | DefKind.Function => Def.Function ⟨d⟩
  | DefKind.Const => Def.Const ⟨d⟩
  | DefKind.Static => Def.Static ⟨d⟩
  | DefKind.Trait => Def.Trait ⟨d⟩
  | DefKind.TypeAlias => Def.TypeAlias ⟨d⟩
  | DefKind.Item => Def.Item

/-- Modelled from the spec: `PerNs<T>` (crate `ra_hir` nameres, not under
src/), the Namespace Pair of §3: two independent optional slots,
`types` (type-namespace) and `values` (value-namespace). -/
structure PerNs (T : Type) where
  types : Option T
  values : Option T
deriving DecidableEq

/-- `PerNs::none()`: the empty Namespace Pair. -/
def PerNs.none {T : Type} : PerNs T := ⟨Option.none, Option.none⟩

/-- `PerNs::types(t)`: only the type slot populated.  (Named `mkTypes` here
because `types` is the field projection.) -/
def PerNs.mkTypes {T : Type} (t : T) : PerNs T := ⟨some t, Option.none⟩

/-- `PerNs::values(t)`: only the value slot populated. -/
def PerNs.mkValues {T : Type} (t : T) : PerNs T := ⟨Option.none, some t⟩

/-- `PerNs::both(types, values)`: `t` fills the type slot and `v` the value
slot, in that argument order. -/
def PerNs.both {T : Type} (t v : T) : PerNs T := ⟨some t, some v⟩

/-- `PerNs::take_types`: read the type slot. -/
def PerNs.take_types {T : Type} (p : PerNs T) : Option T := p.types

/-- Modelled from the spec: a module-scope entry (crate `ra_hir` nameres, not
under src/); the resolver reads its `def_id` Namespace Pair. -/
structure Resolution where
  def_id : PerNs DefId
deriving DecidableEq

/-- Path kinds (crate `ra_hir` path, not under src/; the four kinds are
matched in `resolve_path_impl` and listed in spec §4.5). -/
inductive PathKind
  | Plain
  | Self_
  | Super
  | Crate
deriving DecidableEq

/-- A structured path: a kind plus an ordered sequence of name segments. -/
structure Path where
  kind : PathKind
  segments : List Name
deriving DecidableEq

/-- Modelled from the spec: a module node's parent link (crate `ra_hir`
module_tree, not under src/): declaring name plus owning module (spec §3). -/
structure LinkData where
  owner : ModuleId
  name : Name
deriving DecidableEq

/-- Modelled from the spec: the per-source-root module tree (crate `ra_hir`
module_tree, not under src/).  `parentLink` is absent exactly for the crate
root (spec §3); `source` gives each node's source item; `parent_lt` captures
that the structure is a tree (parents are allocated before their children in
the arena), which is what makes walking to the root terminate. -/
structure ModuleTree where
  parentLink : ModuleId → Option LinkData
  source : ModuleId → Nat
  parent_lt : ∀ m l, parentLink m = some l → l.owner < m

/-- `ModuleId::parent`: the owner of the parent link, when present. -/
def ModuleTree.parent (t : ModuleTree) (m : ModuleId) : Option ModuleId :=
  (t.parentLink m).map LinkData.owner

/-- `ModuleId::crate_root`: follow parent links until a node with none. -/
def ModuleTree.crate_root (t : ModuleTree) (m : ModuleId) : ModuleId :=
  match h : t.parentLink m with
  | Option.none => m
  | some l => t.crate_root l.owner
termination_by m
decreasing_by exact t.parent_lt m l h

/-- The db snapshot consumed by the hir read API: the derived queries that
`code_model_impl/module.rs` issues.  `module_tree`, `item_map` (per-module
scopes after import fixpoint), `enum_data`, per-node `problems` and the
syntax-item queries are derived elsewhere in the repository (not under src/),
so the snapshot carries them as data. -/
structure HirDb where
  module_tree : SourceRootId → ModuleTree
  item_map : SourceRootId → ModuleId → Name → Option Resolution
  enum_data : DefId → List (Name × EnumVariant)
  problems : SourceRootId → ModuleId → List (SyntaxNode × Problem)
  file_item : Nat → SyntaxNode
  file_of_item : Nat → FileId

/-- `Module::from_module_id`: build the canonical module handle for a module
node — a `DefLoc` of kind Module whose source item is the node's source. -/
def Module.from_module_id (db : HirDb) (source_root_id : SourceRootId)
    (module_id : ModuleId) : Module :=
  ⟨{ kind := DefKind.Module
     source_root_id := source_root_id
     module_id := module_id
     source_item_id := (db.module_tree source_root_id).source module_id }⟩

/-- `Module::name` (`name_impl`): the declaring name on the parent link;
`None` when there is no parent link. -/
def Module.name (m : Module) (db : HirDb) : Option Name :=
  ((db.module_tree m.def_id.source_root_id).parentLink m.def_id.module_id).map
    LinkData.name

/-- `Module::parent` (`parent_impl`): the owning module of the parent link. -/
def Module.parent (m : Module) (db : HirDb) : Option Module :=
  ((db.module_tree m.def_id.source_root_id).parent m.def_id.module_id).map
    (Module.from_module_id db m.def_id.source_root_id)

/-- `Module::crate_root` (`crate_root_impl`): the module handle of the tree's
crate-root node. -/
def Module.crate_root (m : Module) (db : HirDb) : Module :=
  Module.from_module_id db m.def_id.source_root_id
    ((db.module_tree m.def_id.source_root_id).crate_root m.def_id.module_id)

/-- `Module::scope` (`scope_impl`): this module's entry of the source root's
item map. -/
def Module.scope (m : Module) (db : HirDb) : Name → Option Resolution :=
  db.item_map m.def_id.source_root_id m.def_id.module_id

/-- `Module::path_to_root`: the module followed by its parent chain. -/
def Module.path_to_root (m : Module) (db : HirDb) : List Module :=
  match hp : m.parent db with
  | Option.none => [m]
  | some p => m :: p.path_to_root db
termination_by m.def_id.module_id
decreasing_by
  simp only [Module.parent, ModuleTree.parent, Option.map_map, Option.map_eq_some'] at hp
  obtain ⟨l, hl, hp⟩ := hp
  have hlt := (db.module_tree m.def_id.source_root_id).parent_lt _ _ hl
  subst hp
  exact hlt

/-- `Module::problems` (`problems_impl`): the problems attached to this
module's node. -/
def Module.problems (m : Module) (db : HirDb) : List (SyntaxNode × Problem) :=
  db.problems m.def_id.source_root_id m.def_id.module_id

/-- `Enum::variants`: the enum's (variant name, variant) list, from the
`enum_data` query. -/
def Enum.variants (e : Enum) (db : HirDb) : List (Name × EnumVariant) :=
  db.enum_data e.def_id

/-- The per-segment loop of `resolve_path_impl` (module.rs lines 149-184):
`total` is `segments.len()`, `idx` the current segment index, `curr_per_ns`
the current Namespace Pair. -/
def resolveLoop (db : HirDb) (total : Nat) :
    List Name → Nat → PerNs DefId → PerNs DefId
  | [], _, curr_per_ns => curr_per_ns
  | name :: rest, idx, curr_per_ns =>
    match curr_per_ns.take_types with
    | Option.none => PerNs.none
    | some curr =>
      match curr.resolve with
      | Def.Module it =>
        match it.scope db name with
        | some r => resolveLoop db total rest (idx + 1) r.def_id
        | Option.none => PerNs.none
      | Def.Enum e =>
        if total == idx + 1 then
          -- enum variant
          match (e.variants db).find? (fun p => p.1 == name) with
          | some pr => PerNs.both pr.2.def_id e.def_id
          | Option.none => PerNs.none
        else if total == idx then
          -- enum
          PerNs.mkTypes e.def_id
        else
          -- malformed enum?
          PerNs.none
      | _ => PerNs.none

/-- `Module::resolve_path` (`resolve_path_impl`): seed a types-only pair at
the kind-dependent starting module (failing with the empty pair when a
Super-path starts at a module with no parent), then run the segment loop. -/
def Module.resolve_path (m : Module) (db : HirDb) (path : Path) : PerNs DefId :=
  let start : Option Module :=
    match path.kind with
    | PathKind.Crate => some (m.crate_root db)
    | PathKind.Self_ => some m
    | PathKind.Plain => some m
    | PathKind.Super => m.parent db
  match start with
  | Option.none => PerNs.none
  | some s =>
    resolveLoop db path.segments.length path.segments 0 (PerNs.mkTypes s.def_id)

/-- `ModuleSource` from `code_model_api.rs`: a module's defining node is
either a whole source file or a `mod name { ... }` item. -/
inductive ModuleSource
  | SourceFile (node : SyntaxNode)
  | Module (node : SyntaxNode)
deriving DecidableEq

/-- `Module::definition_source` (`definition_source_impl`): the original file
of the module's source item, and the item's node cast to a source file when
possible, otherwise to a `mod` item (module source items are always one of
the two forms). -/
def Module.definition_source (m : Module) (db : HirDb) : FileId × ModuleSource :=
  let file_id := db.file_of_item m.def_id.source_item_id
  let node := db.file_item m.def_id.source_item_id
  if node.is_source_file then (file_id, ModuleSource.SourceFile node)
  else (file_id, ModuleSource.Module node)

/-- Diagnostic severity (`ra_ide_api_light::Severity`). -/
inductive Severity
  | Error
  | WeakWarning
deriving DecidableEq

/-- `FilePosition`: a file plus a text offset. -/
structure FilePosition where
  file_id : FileId
  offset : Nat
deriving DecidableEq

/-- `SourceFileEdit`: a text edit in one file (the edit itself is opaque to
the claims proved here). -/
structure SourceFileEdit where
  file_id : FileId
  edit : Nat
deriving DecidableEq

/-- `FileSystemEdit` from `ra_ide_api`: create a file at a path in a source
root, or move a file to a destination path. -/
inductive FileSystemEdit
  | CreateFile (source_root : SourceRootId) (path : RelPath)
  | MoveFile (src : FileId) (dst_source_root : SourceRootId) (dst_path : RelPath)
deriving DecidableEq

/-- `SourceChange`: a labelled batch of text and filesystem edits. -/
structure SourceChange where
  label : String
  source_file_edits : List SourceFileEdit
  file_system_edits : List FileSystemEdit
  cursor_position : Option FilePosition
deriving DecidableEq

/-- `Diagnostic`: a ranged message with optional fix. -/
structure Diagnostic where
  range : Nat × Nat
  message : String
  severity : Severity
  fix : Option SourceChange
deriving DecidableEq

/-- The db snapshot consumed by the `ra_ide_api` layer.  `light_diagnostics`
holds the syntax-only diagnostics of the external `ra_ide_api_light` crate
(already converted, an opaque input to this core); `module_from_file_id` and
`module_from_position` are modelled from the spec: `source_binder` (crate
`ra_hir`, not under src/) maps a file or position to its owning module,
absent when the file belongs to no module tree. -/
structure IdeDb where
  hir : HirDb
  light_diagnostics : FileId → List Diagnostic
  file_source_root : FileId → SourceRootId
  module_from_file_id : FileId → Option Module
  module_from_position : FilePosition → Option Module

/-- The per-problem match arm of `diagnostics` (imp.rs lines 185-227): an
`UnresolvedModule` problem becomes an "unresolved module" error whose fix
creates the candidate file; a `NotDirOwner` problem becomes an error whose
fix moves the file to `move_to` and creates `move_to.join(candidate)`. -/
def problem_diagnostic (source_root : SourceRootId) (file_id : FileId)
    (name_node : SyntaxNode) : Problem → Diagnostic
  | Problem.UnresolvedModule candidate =>
    let create_file := FileSystemEdit.CreateFile source_root candidate
    let fix : SourceChange :=
      { label := "create module"
        source_file_edits := []
        file_system_edits := [create_file]
        cursor_position := Option.none }
    { range := name_node.range
      message := "unresolved module"
      severity := Severity.Error
      fix := some fix }
  | Problem.NotDirOwner move_to candidate =>
    let move_file := FileSystemEdit.MoveFile file_id source_root move_to
    let create_file := FileSystemEdit.CreateFile source_root (move_to ++ candidate)
    let fix : SourceChange :=
      { label := "move file and create module"
        source_file_edits := []
        file_system_edits := [move_file, create_file]
        cursor_position := Option.none }
    { range := name_node.range
      message := "can't declare module at this location"
      severity := Severity.Error
      fix := some fix }

/-- `diagnostics` (imp.rs lines 170-232): the light syntax diagnostics,
followed by one diagnostic per problem attached to the file's module (when
the file has one). -/
def IdeDb.diagnostics (db : IdeDb) (file_id : FileId) : List Diagnostic :=
  let res := db.light_diagnostics file_id
  match db.module_from_file_id file_id with
  | Option.none => res
  | some m =>
    res ++ (m.problems db.hir).map
      (fun pr => problem_diagnostic (db.file_source_root file_id) file_id pr.1 pr.2)

/-- `NavigationTarget` from `navigation_target.rs`. -/
structure NavigationTarget where
  file_id : FileId
  name : String
  kind : Nat
  full_range : Nat × Nat
  focus_range : Option (Nat × Nat)
deriving DecidableEq

/-- `NavigationTarget::from_syntax`. -/
def NavigationTarget.from_syntax (file_id : FileId) (name : String)
    (focus_range : Option (Nat × Nat)) (node : SyntaxNode) : NavigationTarget :=
  { file_id := file_id
    name := name
    kind := node.kind
    full_range := node.range
    focus_range := focus_range }

/-- `NavigationTarget::from_module`: definition source plus the module's name
(empty when absent). -/
def NavigationTarget.from_module (db : HirDb) (module : Module) : NavigationTarget :=
  let fs := module.definition_source db
  let name := (module.name db).getD ""
  match fs.2 with
  | ModuleSource.SourceFile node => NavigationTarget.from_syntax fs.1 name Option.none node
  | ModuleSource.Module node => NavigationTarget.from_syntax fs.1 name Option.none node

/-- `parent_module` (parent_module.rs lines 5-17): empty when the position's
file is in no module tree, otherwise a single navigation target. -/
def parent_module (db : IdeDb) (position : FilePosition) : List NavigationTarget :=
  match db.module_from_position position with
  | Option.none => []
  | some module => [NavigationTarget.from_module db.hir module]

/-- `SourceRoot` (crate `ra_db`, not under src/; spec §3): a mapping from
relative path to file identity. -/
structure SourceRoot where
  files : RelPath → Option FileId

/-- `Default::default()` for `SourceRoot`: the empty listing. -/
def SourceRoot.default : SourceRoot := ⟨fun _ => Option.none⟩

/-- Point update of a function-backed table (a salsa `set` on one key). -/
def upd {α β : Type} [DecidableEq α] (f : α → β) (k : α) (v : β) : α → β :=
  fun x => if x = k then v else f x

/-- An opaque crate graph value; it is only ever replaced wholesale (spec §3),
so its contents are irrelevant to the change protocol. -/
abbrev CrateGraph := Nat

/-- An opaque precomputed library symbol index. -/
abbrev SymbolIndex := Nat

/-- The revisioned input store of `db::RootDatabase` mutated by
`apply_change`: the salsa input queries set in imp.rs lines 25-84.
Functions default to empty/neutral values for never-set keys. -/
structure RootDatabase where
  source_root : SourceRootId → SourceRoot
  local_roots : List SourceRootId
  library_roots : List SourceRootId
  file_text : FileId → String
  file_relative_path : FileId → Option RelPath
  file_source_root : FileId → Option SourceRootId
  library_symbols : SourceRootId → Option SymbolIndex
  crate_graph : CrateGraph

/-- `AddFile` (crate `ra_ide_api` lib, fields as used in imp.rs). -/
structure AddFile where
  file_id : FileId
  path : RelPath
  text : String

/-- `RemoveFile`. -/
structure RemoveFile where
  file_id : FileId
  path : RelPath

/-- `RootChange`: per-root file add/remove sets. -/
structure RootChange where
  added : List AddFile
  removed : List RemoveFile

/-- `LibraryData`: a newly added library root with its precomputed symbol
index and file set. -/
structure LibraryData where
  root_id : SourceRootId
  root_change : RootChange
  symbol_index : SymbolIndex

/-- `AnalysisChange`: the change batch (spec §4.1; fields as used in
imp.rs). -/
structure AnalysisChange where
  new_roots : List (SourceRootId × Bool)
  roots_changed : List (SourceRootId × RootChange)
  files_changed : List (FileId × String)
  libraries_added : List LibraryData
  crate_graph : Option CrateGraph

/-- `apply_root_change` (imp.rs lines 66-84): fold the added files (setting
their text, relative path and root membership, and inserting them into the
root listing), then the removed files (resetting their text to the default
and removing them from the listing), then store the updated listing. -/
def apply_root_change (db : RootDatabase) (root_id : SourceRootId)
    (root_change : RootChange) : RootDatabase :=
  let start : RootDatabase × SourceRoot := (db, db.source_root root_id)
  let after_add := root_change.added.foldl
    (fun (acc : RootDatabase × SourceRoot) add_file =>
      ({ acc.1 with
          file_text := upd acc.1.file_text add_file.file_id add_file.text
          file_relative_path :=
            upd acc.1.file_relative_path add_file.file_id (some add_file.path)
          file_source_root :=
            upd acc.1.file_source_root add_file.file_id (some root_id) },
       ⟨upd acc.2.files add_file.path (some add_file.file_id)⟩))
    start
  let after_remove := root_change.removed.foldl
    (fun (acc : RootDatabase × SourceRoot) remove_file =>
      ({ acc.1 with
          file_text := upd acc.1.file_text remove_file.file_id "" },
       ⟨upd acc.2.files remove_file.path Option.none⟩))
    after_add
  { after_remove.1 with
      source_root := upd after_remove.1.source_root root_id after_remove.2 }

/-- `apply_change` (imp.rs lines 25-64), translated statement by statement:
(1) register new source roots and record the local ones, (2) fold per-root
file changes, (3) set changed file text, (4) register added library roots
(listing, empty source root, symbol index, file set), (5) replace the crate
graph when present. -/
def RootDatabase.apply_change (db : RootDatabase) (change : AnalysisChange) :
    RootDatabase :=
  let db1 :=
    if change.new_roots.isEmpty then db
    else
      let acc := change.new_roots.foldl
        (fun (acc : RootDatabase × List SourceRootId) root =>
          ({ acc.1 with source_root := upd acc.1.source_root root.1 SourceRoot.default },
           if root.2 then acc.2 ++ [root.1] else acc.2))
        (db, db.local_roots)
      { acc.1 with local_roots := acc.2 }
  let db2 := change.roots_changed.foldl
    (fun d rc => apply_root_change d rc.1 rc.2) db1
  let db3 := change.files_changed.foldl
    (fun d fc => { d with file_text := upd d.file_text fc.1 fc.2 }) db2
  let db4 :=
    if change.libraries_added.isEmpty then db3
    else
      let acc := change.libraries_added.foldl
        (fun (acc : RootDatabase × List SourceRootId) library =>
          let d := acc.1
          let d := { d with source_root := upd d.source_root library.root_id SourceRoot.default }
          let d := { d with library_symbols := upd d.library_symbols library.root_id (some library.symbol_index) }
          let d := apply_root_change d library.root_id library.root_change
          (d, acc.2 ++ [library.root_id]))
        (db3, db3.library_roots)
      { acc.1 with library_roots := acc.2 }
  match change.crate_graph with
  | some crate_graph => { db4 with crate_graph := crate_graph }
  | Option.none => db4

/-- Step (1) of `apply_change` in isolation: register new source roots and
record the local ones. -/
def applyStep1 (change : AnalysisChange) (db : RootDatabase) : RootDatabase :=
  if change.new_roots.isEmpty then db
  else
    let acc := change.new_roots.foldl
      (fun (acc : RootDatabase × List SourceRootId) root =>
        ({ acc.1 with source_root := upd acc.1.source_root root.1 SourceRoot.default },
         if root.2 then acc.2 ++ [root.1] else acc.2))
      (db, db.local_roots)
    { acc.1 with local_roots := acc.2 }

/-- Step (2): fold per-root file add/remove sets into root listings and set
their text. -/
def applyStep2 (change : AnalysisChange) (db : RootDatabase) : RootDatabase :=
  change.roots_changed.foldl (fun d rc => apply_root_change d rc.1 rc.2) db

/-- Step (3): apply changed file text for already-tracked files. -/
def applyStep3 (change : AnalysisChange) (db : RootDatabase) : RootDatabase :=
  change.files_changed.foldl
    (fun d fc => { d with file_text := upd d.file_text fc.1 fc.2 }) db

/-- Step (4): register newly added library roots with their symbol indices
and file sets. -/
def applyStep4 (change : AnalysisChange) (db : RootDatabase) : RootDatabase :=
  if change.libraries_added.isEmpty then db
  else
    let acc := change.libraries_added.foldl
      (fun (acc : RootDatabase × List SourceRootId) library =>
        let d := acc.1
        let d := { d with source_root := upd d.source_root library.root_id SourceRoot.default }
        let d := { d with library_symbols := upd d.library_symbols library.root_id (some library.symbol_index) }
        let d := apply_root_change d library.root_id library.root_change
        (d, acc.2 ++ [library.root_id]))
      (db, db.library_roots)
    { acc.1 with library_roots := acc.2 }

/-- Step (5): replace the crate graph when a replacement is present. -/
def applyStep5 (change : AnalysisChange) (db : RootDatabase) : RootDatabase :=
  match change.crate_graph with
  | some crate_graph => { db with crate_graph := crate_graph }
  | Option.none => db

/-- Modelled from the spec: the scope entry that the Per-Module Scope
Aggregator (crate `ra_hir` nameres, not under src/) records for a visible
enum: a Namespace Pair occupying only the type slot (spec §3: "a struct
occupies only the type slot"; §4.5/§8: resolving `[E]` yields type-slot =
handle(E), value-slot empty). -/
def enumScopeResolution (e : DefId) : Resolution := ⟨PerNs.mkTypes e⟩

/-- The shape "each subsequent element is the parent of the previous one". -/
def isParentChain (db : HirDb) : List Module → Prop
  | [] => True
  | [_] => True
  | a :: b :: rest => a.parent db = some b ∧ isParentChain db (b :: rest)

/-- A concrete two-module tree: node 1 is a child of crate-root node 0,
declared under the name "foo". -/
def exTree : ModuleTree where
  parentLink := fun m => if m = 1 then some ⟨0, "foo"⟩ else Option.none
  source := fun m => m
  parent_lt := by
    intro m l h
    simp only at h
    split at h
    · rename_i hm
      cases h
      subst hm
      exact Nat.zero_lt_one
    · exact Option.noConfusion h

/-- Handle of a concrete enum `E` declared in module 0 of root 0. -/
def exEnumId : DefId := ⟨DefKind.Enum, 0, 0, 10⟩

/-- Handle of its concrete variant `V`. -/
def exVariantId : DefId := ⟨DefKind.EnumVariant, 0, 0, 11⟩

/-- A concrete syntax node. -/
def exNode : SyntaxNode := ⟨0, (0, 10), true⟩

/-- A concrete hir snapshot over `exTree`: module 0's scope has the enum `E`
with variant `V`; module 0 carries one problem of each kind. -/
def exHir : HirDb where
  module_tree := fun _ => exTree
  item_map := fun sr mid nm =>
    if sr = 0 ∧ mid = 0 ∧ nm = "E" then some (enumScopeResolution exEnumId)
    else Option.none
  enum_data := fun d => if d = exEnumId then [("V", ⟨exVariantId⟩)] else []
  problems := fun sr mid =>
    if sr = 0 ∧ mid = 0 then
      [(exNode, Problem.UnresolvedModule ["foo.rs"]),
       (exNode, Problem.NotDirOwner ["foo"] ["bar.rs"])]
    else []
  file_item := fun _ => exNode
  file_of_item := fun _ => 1

/-- The canonical handle of crate-root module 0. -/
def exM0 : Module := Module.from_module_id exHir 0 0

/-- The canonical handle of child module 1. -/
def exM1 : Module := Module.from_module_id exHir 0 1

/-- A concrete ide snapshot: file 1 belongs to module 0, no light
diagnostics. -/
def exIde : IdeDb where
  hir := exHir
  light_diagnostics := fun _ => []
  file_source_root := fun _ => 0
  module_from_file_id := fun fid => if fid = 1 then some exM0 else Option.none
  module_from_position := fun pos => if pos.file_id = 1 then some exM0 else Option.none

/-- An empty concrete input store. -/
def exDb0 : RootDatabase where
  source_root := fun _ => SourceRoot.default
  local_roots := []
  library_roots := []
  file_text := fun _ => ""
  file_relative_path := fun _ => Option.none
  file_source_root := fun _ => Option.none
  library_symbols := fun _ => Option.none
  crate_graph := 0

/-- A concrete change batch that registers root 0 and adds a file to it in
the same batch. -/
def exChange : AnalysisChange where
  new_roots := [(0, true)]
  roots_changed := [(0, { added := [⟨5, ["a.rs"], "mod a;"⟩], removed := [] })]
  files_changed := []
  libraries_added := []
  crate_graph := Option.none

/-- `Module::parent` is `None` exactly when the node's parent link is. -/
theorem parent_eq_none_iff (db : HirDb) (m : Module) :
    m.parent db = Option.none ↔
      (db.module_tree m.def_id.source_root_id).parentLink m.def_id.module_id =
        Option.none := by
  simp [Module.parent, ModuleTree.parent]

/-- `Module::parent` yields the canonical handle of the parent link's
owner. -/
theorem parent_eq_some_iff (db : HirDb) (m p : Module) :
    m.parent db = some p ↔
      ∃ l, (db.module_tree m.def_id.source_root_id).parentLink m.def_id.module_id =
          some l ∧
        p = Module.from_module_id db m.def_id.source_root_id l.owner := by
  simp only [Module.parent, ModuleTree.parent, Option.map_map, Option.map_eq_some']
  constructor
  · rintro ⟨l, hl, hp⟩
    exact ⟨l, hl, hp.symm⟩
  · rintro ⟨l, hl, hp⟩
    exact ⟨l, hl, hp.symm⟩

/-- The parent of a module has a strictly smaller node id (the tree
invariant lifted through the handles). -/
theorem parent_module_id_lt (db : HirDb) (m p : Module) (h : m.parent db = some p) :
    p.def_id.module_id < m.def_id.module_id := by
  rw [parent_eq_some_iff] at h
  obtain ⟨l, hl, hp⟩ := h
  subst hp
  exact (db.module_tree m.def_id.source_root_id).parent_lt _ _ hl

/-- The node reached by `crate_root` has no parent link. -/
theorem crate_root_parentLink_none (t : ModuleTree) (m : ModuleId) :
    t.parentLink (t.crate_root m) = Option.none := by
  induction m using Nat.strong_induction_on with
  | _ m ih =>
    rw [ModuleTree.crate_root]
    split
    · assumption
    · rename_i l hl
      exact ih l.owner (t.parent_lt m l hl)

/-- One unfolding step of `crate_root` across a parent link. -/
theorem crate_root_step (t : ModuleTree) (m : ModuleId) (l : LinkData)
    (h : t.parentLink m = some l) : t.crate_root m = t.crate_root l.owner := by
  rw [ModuleTree.crate_root, h]

/-- `crate_root` is stable under moving to the parent module. -/
theorem parent_crate_root (db : HirDb) (m p : Module) (h : m.parent db = some p) :
    p.crate_root db = m.crate_root db := by
  rw [parent_eq_some_iff] at h
  obtain ⟨l, hl, hp⟩ := h
  subst hp
  show Module.from_module_id db m.def_id.source_root_id
      ((db.module_tree m.def_id.source_root_id).crate_root l.owner) =
    Module.from_module_id db m.def_id.source_root_id
      ((db.module_tree m.def_id.source_root_id).crate_root m.def_id.module_id)
  rw [crate_root_step (db.module_tree m.def_id.source_root_id) m.def_id.module_id l hl]

/-- `path_to_root` always starts with the module itself. -/
theorem path_to_root_cons (db : HirDb) (m : Module) :
    ∃ t, m.path_to_root db = m :: t := by
  rw [Module.path_to_root]
  split
  · exact ⟨[], rfl⟩
  · exact ⟨_, rfl⟩

/-- Unfolding of `path_to_root` at a crate-root module. -/
theorem path_to_root_parent_none (db : HirDb) (m : Module)
    (h : m.parent db = Option.none) : m.path_to_root db = [m] := by
  rw [Module.path_to_root, h]

/-- Unfolding of `path_to_root` across one parent link. -/
theorem path_to_root_parent_some (db : HirDb) (m p : Module)
    (h : m.parent db = some p) : m.path_to_root db = m :: p.path_to_root db := by
  rw [Module.path_to_root, h]

/-- A module with no parent is its own crate root, provided its handle is
canonical. -/
theorem crate_root_self (db : HirDb) (m : Module)
    (hp : m.parent db = Option.none)
    (hcanon : m = Module.from_module_id db m.def_id.source_root_id
      m.def_id.module_id) :
    m.crate_root db = m := by
  rw [parent_eq_none_iff] at hp
  have hroot : (db.module_tree m.def_id.source_root_id).crate_root
      m.def_id.module_id = m.def_id.module_id := by
    rw [ModuleTree.crate_root, hp]
  simp only [Module.crate_root, hroot]
  exact hcanon.symm

/-- `path_to_root` is a parent chain (strong induction on the node id). -/
theorem path_to_root_chain_aux (db : HirDb) :
    ∀ n (m : Module), m.def_id.module_id ≤ n →
      isParentChain db (m.path_to_root db) := by
  intro n
  induction n with
  | zero =>
    intro m hm
    cases hp : m.parent db with
    | none =>
      rw [path_to_root_parent_none db m hp]
      exact trivial
    | some p =>
      exact absurd (Nat.lt_of_lt_of_le (parent_module_id_lt db m p hp) hm)
        (Nat.not_lt_zero _)
  | succ n ih =>
    intro m hm
    cases hp : m.parent db with
    | none =>
      rw [path_to_root_parent_none db m hp]
      exact trivial
    | some p =>
      rw [path_to_root_parent_some db m p hp]
      obtain ⟨t, ht⟩ := path_to_root_cons db p
      rw [ht]
      refine ⟨hp, ?_⟩
      rw [← ht]
      have hlt := parent_module_id_lt db m p hp
      exact ih p (Nat.lt_succ_iff.mp (Nat.lt_of_lt_of_le hlt hm))

/-- The last element of `path_to_root` is the module's crate root (strong
induction on the node id; needs the handle to be canonical). -/
theorem path_to_root_getLast_aux (db : HirDb) :
    ∀ n (m : Module), m.def_id.module_id ≤ n →
      m = Module.from_module_id db m.def_id.source_root_id m.def_id.module_id →
      (m.path_to_root db).getLast? = some (m.crate_root db) := by
  intro n
  induction n with
  | zero =>
    intro m hm hcanon
    cases hp : m.parent db with
    | none =>
      rw [path_to_root_parent_none db m hp, crate_root_self db m hp hcanon]
      rfl
    | some p =>
      exact absurd (Nat.lt_of_lt_of_le (parent_module_id_lt db m p hp) hm)
        (Nat.not_lt_zero _)
  | succ n ih =>
    intro m hm hcanon
    cases hp : m.parent db with
    | none =>
      rw [path_to_root_parent_none db m hp, crate_root_self db m hp hcanon]
      rfl
    | some p =>
      rw [path_to_root_parent_some db m p hp]
      obtain ⟨t, ht⟩ := path_to_root_cons db p
      rw [ht, List.getLast?_cons_cons, ← ht]
      have hcanon' : p = Module.from_module_id db p.def_id.source_root_id
          p.def_id.module_id := by
        have h2 := hp
        rw [parent_eq_some_iff] at h2
        obtain ⟨l, hl, hpe⟩ := h2
        subst hpe
        rfl
      have hlt := parent_module_id_lt db m p hp
      rw [ih p (Nat.lt_succ_iff.mp (Nat.lt_of_lt_of_le hlt hm)) hcanon']
      rw [parent_crate_root db m p hp]

/-- C9: resolving a Self- or Plain-kind path with an empty segment list via
`Module::resolve_path` succeeds and returns the seed Namespace Pair
unchanged: type slot = the starting module's own handle, value slot
empty. -/
theorem resolve_path_empty_segments (db : HirDb) (m : Module) :
    m.resolve_path db { kind := PathKind.Self_, segments := [] } =
      PerNs.mkTypes m.def_id ∧
    m.resolve_path db { kind := PathKind.Plain, segments := [] } =
      PerNs.mkTypes m.def_id :=
  ⟨rfl, rfl⟩

/-- C3: resolving any Super-kind path starting from a crate-root module (one
with no parent) yields the empty Namespace Pair, regardless of the path's
segments. -/
theorem resolve_path_super_at_crate_root (db : HirDb) (m : Module) (path : Path)
    (hk : path.kind = PathKind.Super) (hp : m.parent db = Option.none) :
    m.resolve_path db path = PerNs.none := by
  obtain ⟨k, segs⟩ := path
  simp only at hk
  subst hk
  simp [Module.resolve_path, hp]

/-- Witness for C3: at the concrete snapshot, module 0 is a crate root and a
Super path with segments resolves to the empty pair. -/
theorem resolve_path_super_at_crate_root_witness :
    Module.parent exM0 exHir = Option.none ∧
    Module.resolve_path exM0 exHir { kind := PathKind.Super, segments := ["a", "b"] } =
      PerNs.none :=
  ⟨rfl, resolve_path_super_at_crate_root exHir exM0 _ rfl rfl⟩

/-- C2: every failure case of the per-segment loop of `Module::resolve_path`
— empty type slot at a segment, segment name absent from the module's scope,
a non-module non-enum definition reached at a segment, or an enum reached at
the last segment with no matching variant — returns the empty Namespace
Pair.  (Failure is represented as data: the embedding of `resolve_path` is a
total function into `PerNs`, never an error.) -/
theorem resolve_path_failure_empty (db : HirDb) (name : Name) (rest : List Name)
    (idx total : Nat) (curr_per_ns : PerNs DefId)
    (h : curr_per_ns.take_types = Option.none
       ∨ (∃ d it, curr_per_ns.take_types = some d ∧ d.resolve = Def.Module it ∧
            it.scope db name = Option.none)
       ∨ (∃ d, curr_per_ns.take_types = some d ∧
            (∀ it, d.resolve ≠ Def.Module it) ∧ (∀ e, d.resolve ≠ Def.Enum e))
       ∨ (∃ d e, curr_per_ns.take_types = some d ∧ d.resolve = Def.Enum e ∧
            rest = [] ∧ total = idx + 1 ∧
            (e.variants db).find? (fun p => p.1 == name) = Option.none)) :
    resolveLoop db total (name :: rest) idx curr_per_ns = PerNs.none := by
  rcases h with h | ⟨d, it, hd, hres, hscope⟩ | ⟨d, hd, hnm, hne⟩ |
    ⟨d, e, hd, hres, hrest, htot, hfind⟩
  · simp [resolveLoop, h]
  · simp [resolveLoop, hd, hres, hscope]
  · simp only [resolveLoop, hd]
  · subst hrest
    subst htot
    simp [resolveLoop, hd, hres, hfind]

/-- Witness for C2: the name "nope" is absent from module 0's scope, so the
loop fails with the empty pair. -/
theorem resolve_path_failure_empty_witness :
    resolveLoop exHir 1 ["nope"] 0 (PerNs.mkTypes exM0.def_id) = PerNs.none :=
  resolve_path_failure_empty exHir "nope" [] 0 1 (PerNs.mkTypes exM0.def_id)
    (Or.inr (Or.inl ⟨exM0.def_id, ⟨exM0.def_id⟩, rfl, rfl, rfl⟩))

/-- C4: with an enum `E` visible in the starting module's scope, resolving
the Plain-kind single-segment path `[E]` yields a Namespace Pair with
type slot = handle(E) and value slot empty. -/
theorem resolve_path_single_enum_segment (db : HirDb) (m : Module)
    (ename : Name) (eid : DefId)
    (hmk : m.def_id.kind = DefKind.Module)
    (hek : eid.kind = DefKind.Enum)
    (hscope : m.scope db ename = some (enumScopeResolution eid)) :
    m.resolve_path db { kind := PathKind.Plain, segments := [ename] } =
      PerNs.mkTypes eid := by
  have hres : DefLoc.resolve m.def_id = Def.Module ⟨m.def_id⟩ := by
    rw [DefLoc.resolve, hmk]
  simp only [Module.resolve_path, resolveLoop, PerNs.take_types, PerNs.mkTypes]
  rw [hres]
  simp only [Module.scope] at hscope ⊢
  rw [hscope]
  rfl

/-- Witness for C4: resolving `[E]` at the concrete snapshot yields a pair
with type slot = the enum handle and value slot empty. -/
theorem resolve_path_single_enum_segment_witness :
    Module.resolve_path exM0 exHir { kind := PathKind.Plain, segments := ["E"] } =
      PerNs.mkTypes exEnumId :=
  resolve_path_single_enum_segment exHir exM0 "E" exEnumId rfl rfl rfl

/-- Counterexample for C1: at a concrete snapshot with enum `E`
(handle `exEnumId`) and its variant `V` (handle `exVariantId`) visible at
the crate root, resolving Plain `[E, V]` returns type slot = the variant's
handle but value slot = the *enum's* handle (`PerNs::both(variant.def_id(),
e.def_id())`, module.rs line 164), so the result is not "the variant's
handle in both slots" as the claim states. -/
theorem resolve_path_enum_variant_counterexample :
    Module.resolve_path exM0 exHir { kind := PathKind.Plain, segments := ["E", "V"] } =
      PerNs.both exVariantId exEnumId ∧
    Module.resolve_path exM0 exHir { kind := PathKind.Plain, segments := ["E", "V"] } ≠
      PerNs.both exVariantId exVariantId := by
  constructor
  · rfl
  · decide

/-- C1 (amended): with enum `E` visible in the starting module's scope and a
variant matching the trailing segment `V`, resolving Plain `[E, V]` yields a
Namespace Pair populated in both slots with type slot = the variant's handle
and value slot = the enum's handle. -/
theorem resolve_path_enum_variant (db : HirDb) (m : Module)
    (ename vname : Name) (eid : DefId) (pr : Name × EnumVariant)
    (hmk : m.def_id.kind = DefKind.Module)
    (hek : eid.kind = DefKind.Enum)
    (hscope : m.scope db ename = some (enumScopeResolution eid))
    (hfind : (db.enum_data eid).find? (fun p => p.1 == vname) = some pr) :
    m.resolve_path db { kind := PathKind.Plain, segments := [ename, vname] } =
      PerNs.both pr.2.def_id eid := by
  have hresm : DefLoc.resolve m.def_id = Def.Module ⟨m.def_id⟩ := by
    rw [DefLoc.resolve, hmk]
  have hrese : DefLoc.resolve eid = Def.Enum ⟨eid⟩ := by
    rw [DefLoc.resolve, hek]
  simp only [Module.resolve_path, resolveLoop, PerNs.take_types, PerNs.mkTypes]
  rw [hresm]
  simp only [Module.scope] at hscope ⊢
  rw [hscope]
  simp only [enumScopeResolution, PerNs.mkTypes]
  rw [hrese]
  simp [Enum.variants, hfind]

/-- Witness for C1 (amended): the concrete resolution of `[E, V]`. -/
theorem resolve_path_enum_variant_witness :
    Module.resolve_path exM0 exHir { kind := PathKind.Plain, segments := ["E", "V"] } =
      PerNs.both exVariantId exEnumId :=
  resolve_path_enum_variant exHir exM0 "E" "V" exEnumId ("V", ⟨exVariantId⟩)
    rfl rfl rfl rfl

/-- C6: `Module::path_to_root` returns a non-empty list headed by the module
itself, in which each subsequent element is the parent of the previous one,
and whose last element is the module's crate root — the ancestor with no
parent.  (The hypothesis says the module's handle is the canonical one built
by `from_module_id`, which is how every `Module` value is constructed.) -/
theorem path_to_root_spec (db : HirDb) (m : Module)
    (hm : m = Module.from_module_id db m.def_id.source_root_id m.def_id.module_id) :
    (m.path_to_root db).head? = some m ∧
    isParentChain db (m.path_to_root db) ∧
    (m.path_to_root db).getLast? = some (m.crate_root db) ∧
    (m.crate_root db).parent db = Option.none := by
  refine ⟨?_, ?_, ?_, ?_⟩
  · obtain ⟨t, ht⟩ := path_to_root_cons db m
    rw [ht]
    rfl
  · exact path_to_root_chain_aux db m.def_id.module_id m (le_refl _)
  · exact path_to_root_getLast_aux db m.def_id.module_id m (le_refl _) hm
  · rw [parent_eq_none_iff]
    exact crate_root_parentLink_none (db.module_tree m.def_id.source_root_id)
      m.def_id.module_id

/-- Witness for C6: the ancestor chain of child module 1 in the concrete
tree. -/
theorem path_to_root_spec_witness :
    (Module.path_to_root exM1 exHir).head? = some exM1 ∧
    isParentChain exHir (Module.path_to_root exM1 exHir) ∧
    (Module.path_to_root exM1 exHir).getLast? = some (Module.crate_root exM1 exHir) ∧
    Module.parent (Module.crate_root exM1 exHir) exHir = Option.none :=
  path_to_root_spec exHir exM1 rfl

/-- C8: `Module::name` returns `None` exactly when the module's node has no
parent link (a crate root); for a node with a parent link it returns the
declaring name recorded on that link. -/
theorem module_name_none_iff_crate_root (db : HirDb) (m : Module) :
    (m.name db = Option.none ↔
      (db.module_tree m.def_id.source_root_id).parentLink m.def_id.module_id =
        Option.none) ∧
    (∀ l, (db.module_tree m.def_id.source_root_id).parentLink m.def_id.module_id =
        some l → m.name db = some l.name) := by
  constructor
  · simp [Module.name]
  · intro l hl
    simp [Module.name, hl]

/-- Witness for C8: in the concrete tree, the child is named "foo" and the
root has no name. -/
theorem module_name_none_iff_crate_root_witness :
    Module.name exM1 exHir = some "foo" ∧ Module.name exM0 exHir = Option.none :=
  ⟨(module_name_none_iff_crate_root exHir exM1).2 ⟨0, "foo"⟩ rfl,
   (module_name_none_iff_crate_root exHir exM0).1.mpr rfl⟩

/-- C7: `diagnostics` turns each Problem attached to the file's module into
exactly one diagnostic, appended after the syntax-level diagnostics: an
UnresolvedModule problem yields message "unresolved module" with a fix of
exactly one CreateFile edit at the candidate path; a NotDirOwner problem
yields a fix of a MoveFile edit to `move_to` followed by a CreateFile edit
at `move_to` joined with `candidate`. -/
theorem diagnostics_problem_fixes (db : IdeDb) (file_id : FileId) (m : Module)
    (h : db.module_from_file_id file_id = some m) :
    db.diagnostics file_id =
      db.light_diagnostics file_id ++
        (m.problems db.hir).map
          (fun pr => problem_diagnostic (db.file_source_root file_id) file_id pr.1 pr.2) ∧
    (db.diagnostics file_id).length =
      (db.light_diagnostics file_id).length + (m.problems db.hir).length ∧
    (∀ sr f node candidate,
      problem_diagnostic sr f node (Problem.UnresolvedModule candidate) =
        { range := node.range
          message := "unresolved module"
          severity := Severity.Error
          fix := some
            { label := "create module"
              source_file_edits := []
              file_system_edits := [FileSystemEdit.CreateFile sr candidate]
              cursor_position := Option.none } }) ∧
    (∀ sr f node move_to candidate,
      problem_diagnostic sr f node (Problem.NotDirOwner move_to candidate) =
        { range := node.range
          message := "can't declare module at this location"
          severity := Severity.Error
          fix := some
            { label := "move file and create module"
              source_file_edits := []
              file_system_edits :=
                [FileSystemEdit.MoveFile f sr move_to,
                 FileSystemEdit.CreateFile sr (move_to ++ candidate)]
              cursor_position := Option.none } }) := by
  refine ⟨?_, ?_, fun sr f node candidate => rfl,
    fun sr f node move_to candidate => rfl⟩
  · simp [IdeDb.diagnostics, h]
  · simp [IdeDb.diagnostics, h]

/-- Witness for C7: file 1 of the concrete snapshot carries one problem of
each kind, and `diagnostics` emits exactly one diagnostic per problem. -/
theorem diagnostics_problem_fixes_witness :
    IdeDb.diagnostics exIde 1 =
      exIde.light_diagnostics 1 ++
        (Module.problems exM0 exIde.hir).map
          (fun pr => problem_diagnostic (exIde.file_source_root 1) 1 pr.1 pr.2) ∧
    (IdeDb.diagnostics exIde 1).length =
      (exIde.light_diagnostics 1).length + (Module.problems exM0 exIde.hir).length :=
  ⟨(diagnostics_problem_fixes exIde 1 exM0 rfl).1,
   (diagnostics_problem_fixes exIde 1 exM0 rfl).2.1⟩

/-- C10: `parent_module` returns at most one navigation target: the empty
list exactly when the position's file belongs to no module tree, and the
single target of the owning module otherwise. -/
theorem parent_module_at_most_one (db : IdeDb) (position : FilePosition) :
    (parent_module db position).length ≤ 1 ∧
    (parent_module db position = [] ↔
      db.module_from_position position = Option.none) ∧
    (∀ m, db.module_from_position position = some m →
      parent_module db position = [NavigationTarget.from_module db.hir m]) := by
  unfold parent_module
  cases h : db.module_from_position position <;> simp

/-- Witness for C10: at the concrete snapshot, the position in file 1
yields exactly the owning module's navigation target. -/
theorem parent_module_at_most_one_witness :
    parent_module exIde { file_id := 1, offset := 0 } =
      [NavigationTarget.from_module exIde.hir exM0] :=
  (parent_module_at_most_one exIde { file_id := 1, offset := 0 }).2.2 exM0 rfl

/-- C5: `apply_change` is the in-order composition of the five steps —
(1) register new source roots (recording local ones), (2) fold per-root file
adds/removes into root listings and set their text, (3) apply changed file
text, (4) register newly added library roots with their symbol indices and
file sets, (5) replace the crate graph when present.  The order is
significant: on a batch that registers a root and adds a file to it,
performing step (2) before step (1) loses the added file. -/
theorem apply_change_in_order :
    (∀ (change : AnalysisChange) (db : RootDatabase),
      db.apply_change change =
        applyStep5 change (applyStep4 change (applyStep3 change
          (applyStep2 change (applyStep1 change db))))) ∧
    ((applyStep2 exChange (applyStep1 exChange exDb0)).source_root 0).files
      ["a.rs"] = some 5 ∧
    ((applyStep1 exChange (applyStep2 exChange exDb0)).source_root 0).files
      ["a.rs"] = Option.none := by
  refine ⟨fun change db => rfl, ?_, ?_⟩ <;> rfl

end RA
